import Mathlib

/-!
Verification of the dvmn-vacancy salary-reporting script.

The script queries two job-listing APIs (HeadHunter and SuperJob), estimates
an average advertised salary per programming language, and prints comparison
tables.  The pure logic of `src/script.py` is embedded shallowly below:

* numbers flowing through salary arithmetic are modelled as rationals
  (the Python floats only ever hold values exact in these rationals here);
* Python `None` becomes `Option.none`;
* raised exceptions become `Except.error` carrying the message string;
* the HTTP layer is replaced by an explicit "server" function giving the
  response for each requested page, so pagination logic is exercised
  unchanged while network I/O is abstracted away.
-/

namespace DvmnVacancy

/-- Python membership test used by the script on salary bounds:
`salary in (None, 0)` holds for `None` and for a zero number. -/
def isNoneOrZero (s : Option ℚ) : Prop := s = none ∨ s = some 0

instance (s : Option ℚ) : Decidable (isNoneOrZero s) := by
  unfold isNoneOrZero; infer_instance

/-- Embedding of `get_predict_salary(salary_from, salary_to)`
(src/script.py lines 8-18).  `0.8` and `1.2` are the exact rationals
`8/10` and `12/10`. -/
def get_predict_salary (salary_from salary_to : Option ℚ) : Option ℚ :=
  if isNoneOrZero salary_from ∧ isNoneOrZero salary_to then
    none
  else if isNoneOrZero salary_from then
    some (salary_to.getD 0 * (8 / 10))
  else if isNoneOrZero salary_to then
    some (salary_from.getD 0 * (12 / 10))
  else
    some ((salary_to.getD 0 - salary_from.getD 0) / 2)

/-- Spec-side restatement of the estimator, written from the words of
section 4.3 of the specification: zero bounds are first normalised to
absent, then the four cases absent/absent, absent/present, present/absent,
present/present are applied.  Used only to compare against
`get_predict_salary`. -/
def estimatorSpec (lower upper : Option ℚ) : Option ℚ :=
  let normalize : Option ℚ → Option ℚ := fun s =>
    match s with
    | none => none
    | some v => if v = 0 then none else some v
  match normalize lower, normalize upper with
  | none, none => none
  | none, some u => some (u * (8 / 10))
  | some l, none => some (l * (12 / 10))
  | some l, some u => some ((u - l) / 2)

/-- Salary sub-structure of a HeadHunter vacancy: JSON fields
`currency`, `from`, `to` (the latter two renamed, `from` is reserved). -/
structure HHSalary where
  currency : String
  lowerBound : Option ℚ
  upperBound : Option ℚ
  deriving DecidableEq, Repr

/-- A HeadHunter vacancy record, keeping only the field the script reads. -/
structure HHVacancy where
  salary : Option HHSalary
  deriving DecidableEq, Repr

/-- Embedding of `predict_rub_salary_hh(vacancy)` (src/script.py lines 65-69). -/
def predict_rub_salary_hh (vacancy : HHVacancy) : Option ℚ :=
  match vacancy.salary with
  | none => none
  | some s =>
      if s.currency ≠ "RUR" then none
      else get_predict_salary s.lowerBound s.upperBound

/-- A SuperJob vacancy record, keeping only the fields the script reads. -/
structure SJVacancy where
  currency : String
  payment_from : Option ℚ
  payment_to : Option ℚ
  deriving DecidableEq, Repr

/-- Embedding of `predict_rub_salary_sj(vacancy)` (src/script.py lines 131-135). -/
def predict_rub_salary_sj (vacancy : SJVacancy) : Option ℚ :=
  if vacancy.currency ≠ "rub" then none
  else get_predict_salary vacancy.payment_from vacancy.payment_to

/-- Embedding of `statistics.mean`: on an empty list Python raises
a `StatisticsError` whose message is the string used below, modelled as an
error result; otherwise the arithmetic mean. -/
def statisticsMean (xs : List ℚ) : Except String ℚ :=
  match xs with
  | [] => .error "mean requires at least one data point"
  | _ => .ok (xs.sum / (xs.length : ℚ))

/-- Python `int()` on an exact rational: truncation toward zero. -/
def pyIntTrunc (q : ℚ) : Int := if q < 0 then -⌊-q⌋ else ⌊q⌋

/-- The per-language summary record built by the aggregators. -/
structure LanguageStats where
  vacancies_found : Nat
  vacancies_processed : Nat
  average_salary : Int
  deriving DecidableEq, Repr

/-- Shared body of the per-language loops of
`predict_hh_programmers_vacancies` (src/script.py lines 90-97) and
`predict_sj_programmers_vacancies` (lines 145-152): fetch the vacancies for
the query built from the language, keep the non-`None` salary estimates,
and record the found/processed counts and the truncated mean.  A
`StatisticsError` raised by `statistics.mean` aborts the whole loop, so it
propagates as an error of the aggregation. -/
def aggregateVacancies {V : Type} (fetch : String → List V)
    (predictSalary : V → Option ℚ) :
    List String → Except String (List (String × LanguageStats))
  | [] => .ok []
  | language :: rest =>
    let vacancies_found := fetch ("программист " ++ language)
    let salaries := vacancies_found.filterMap predictSalary
    match statisticsMean salaries with
    | .error e => .error e
    | .ok m =>
      match aggregateVacancies fetch predictSalary rest with
      | .error e => .error e
      | .ok tail =>
          .ok ((language,
            ⟨vacancies_found.length, salaries.length, pyIntTrunc m⟩) :: tail)

/-- The per-language loop of `predict_hh_programmers_vacancies`
(src/script.py lines 90-97); `fetch` stands for `get_hh_vacancies` applied
to the already-resolved area id and period. -/
def predict_hh_programmers_vacancies (fetch : String → List HHVacancy)
    (languages : List String) : Except String (List (String × LanguageStats)) :=
  aggregateVacancies fetch predict_rub_salary_hh languages

/-- The per-language loop of `predict_sj_programmers_vacancies`
(src/script.py lines 145-152); `fetch` stands for `get_sj_vacancies`
applied to the key, area id and catalogue. -/
def predict_sj_programmers_vacancies (fetch : String → List SJVacancy)
    (languages : List String) : Except String (List (String × LanguageStats)) :=
  aggregateVacancies fetch predict_rub_salary_sj languages

/-- One page of a HeadHunter `/vacancies` response: the reported total page
count and the items of the requested page. -/
structure HHPage where
  pages : Nat
  items : List HHVacancy

/-- The while-loop of `get_hh_vacancies` (src/script.py lines 51-60), with
an explicit fuel bound on the number of iterations: each pass requests the
current page from the server, appends its items, and stops once the next
page index reaches the page count reported by the response just received. -/
def get_hh_vacancies_loop (server : Nat → HHPage) :
    Nat → Nat → List HHVacancy → List HHVacancy
  | 0, _, acc => acc
  | fuel + 1, page, acc =>
    let response := server page
    let acc2 := acc ++ response.items
    let page2 := page + 1
    if page2 ≥ response.pages then acc2
    else get_hh_vacancies_loop server fuel page2 acc2

/-- Embedding of `get_hh_vacancies` (src/script.py lines 42-62): start at
page 0 with an empty accumulator.  The request parameters other than the
page number are fixed across iterations, so the server function only takes
the page. -/
def get_hh_vacancies (server : Nat → HHPage) (fuel : Nat) : List HHVacancy :=
  get_hh_vacancies_loop server fuel 0 []

/-- One page of a SuperJob `/vacancies/` response: the reported total
record count and the objects of the requested page. -/
structure SJPage where
  total : Nat
  objects : List SJVacancy

/-- The while-loop of `get_sj_vacancies` (src/script.py lines 119-127):
the page count is recomputed each pass as `total // 100 + 1` from the
response just received. -/
def get_sj_vacancies_loop (server : Nat → SJPage) :
    Nat → Nat → List SJVacancy → List SJVacancy
  | 0, _, acc => acc
  | fuel + 1, page, acc =>
    let response := server page
    let pages := response.total / 100 + 1
    let acc2 := acc ++ response.objects
    let page2 := page + 1
    if page2 ≥ pages then acc2
    else get_sj_vacancies_loop server fuel page2 acc2

/-- Embedding of `get_sj_vacancies` (src/script.py lines 110-128). -/
def get_sj_vacancies (server : Nat → SJPage) (fuel : Nat) : List SJVacancy :=
  get_sj_vacancies_loop server fuel 0 []

/-- A well-behaved HeadHunter server backed by the record list `L`:
page `i` holds records `20*i .. 20*i+19` (each page returns its full
requested size of 20 except the last), and every response reports the true
page count `ceil (length L / 20)`. -/
def hhHonestServer (L : List HHVacancy) : Nat → HHPage :=
  fun page => ⟨(L.length + 19) / 20, (L.drop (20 * page)).take 20⟩

/-- A well-behaved SuperJob server backed by the record list `L`: page `i`
holds records `100*i .. 100*i+99` (each page returns its full requested
size of 100 except the last), and every response reports the true total
record count. -/
def sjHonestServer (L : List SJVacancy) : Nat → SJPage :=
  fun page => ⟨L.length, (L.drop (100 * page)).take 100⟩

/-- A node of the HeadHunter areas tree: JSON fields id, name, areas. -/
inductive HHArea where
  | node (areaId : String) (areaName : String) (subAreas : List HHArea)

/-- JSON field `id` of an area node. -/
def HHArea.id : HHArea → String
  | .node i _ _ => i

/-- JSON field `name` of an area node. -/
def HHArea.name : HHArea → String
  | .node _ n _ => n

/-- JSON field `areas` of an area node. -/
def HHArea.areas : HHArea → List HHArea
  | .node _ _ a => a

/-- Embedding of `find_hh_area_recursive(areas, text)` (src/script.py
lines 21-29): walk the area list in order; return the id of the first
area whose name equals the text, otherwise search its children (when
non-empty), otherwise continue with the remaining areas.  The Python
sentinel `False` for "not found" becomes `none`. -/
def find_hh_area_recursive : List HHArea → String → Option String
  | [], _ => none
  | .node i n c :: rest, text =>
    if n = text then some i
    else
      match (if c.length > 0 then find_hh_area_recursive c text else none) with
      | some area_id => some area_id
      | none => find_hh_area_recursive rest text

/-- Embedding of `get_hh_area_id` (src/script.py lines 32-39) applied to
an already-fetched areas tree.  The guard `if not area_id` is Python
truthiness: both `False` (no match) and a matched but empty-string id
raise the city-not-found error. -/
def get_hh_area_id (areas : List HHArea) (text : String) :
    Except String String :=
  match find_hh_area_recursive areas text with
  | none => .error "Город не найден"
  | some area_id =>
      if area_id = "" then .error "Город не найден" else .ok area_id

/-- Spec-side depth-first preorder flattening of the areas forest: a node
comes before its children, and the children come before later siblings. -/
def dfsPreorder : List HHArea → List HHArea
  | [] => []
  | .node i n c :: rest => .node i n c :: (dfsPreorder c ++ dfsPreorder rest)

/-- One unit of standard output produced by `main`: a rendered table
(title plus its per-language rows, as `print_table` receives them) or an
error line. -/
inductive OutputLine where
  | table (title : String) (rows : List (String × LanguageStats))
  | errorLine (msg : String)
  deriving DecidableEq, Repr

/-- Embedding of the body of `main` (src/script.py lines 168-180).  The
outcome of each report pipeline, which depends only on the network, is
passed in as an `Except` value; `superjob_key` is the value of the
SUPERJOB_KEY environment variable, `none` when unset.  A single
try/except wraps both reports, and the print of the caught exception
prefixed by Error becomes an error output line.  `os.getenv` with default
`False` followed by `if superjob_key:` runs the SuperJob report only when
the key is set and non-empty (Python truthiness). -/
def main (hhReport : Except String (List (String × LanguageStats)))
    (sjReport : String → Except String (List (String × LanguageStats)))
    (superjob_key : Option String) : List OutputLine :=
  match hhReport with
  | .error e => [.errorLine ("Error: " ++ e)]
  | .ok hh =>
    let hhTable := OutputLine.table "HeadHunter Moscow" hh
    match superjob_key with
    | none => [hhTable]
    | some key =>
      if key = "" then [hhTable]
      else
        match sjReport key with
        | .error e => [hhTable, .errorLine ("Error: " ++ e)]
        | .ok sj => [hhTable, OutputLine.table "SuperJob Moscow" sj]

end DvmnVacancy

namespace DvmnVacancy

/-- C1: the salary estimator is a deterministic pure function of the two
bounds that agrees everywhere with the four-case description of the
specification, and takes the five concrete values the specification lists. -/
theorem c1_estimator_matches_spec :
    (∀ salary_from salary_to : Option ℚ,
      get_predict_salary salary_from salary_to = estimatorSpec salary_from salary_to) ∧
    get_predict_salary (some 0) (some 0) = none ∧
    get_predict_salary none none = none ∧
    get_predict_salary none (some 1000) = some 800 ∧
    get_predict_salary (some 1000) none = some 1200 ∧
    get_predict_salary (some 1000) (some 2000) = some 500 := by
  refine ⟨?_, ?_, ?_, ?_, ?_, ?_⟩
  · intro sf st
    cases sf with
    | none =>
        cases st with
        | none => rfl
        | some t =>
            by_cases ht : t = 0 <;>
              simp [get_predict_salary, estimatorSpec, isNoneOrZero, ht]
    | some f =>
        cases st with
        | none =>
            by_cases hf : f = 0 <;>
              simp [get_predict_salary, estimatorSpec, isNoneOrZero, hf]
        | some t =>
            by_cases hf : f = 0 <;> by_cases ht : t = 0 <;>
              simp [get_predict_salary, estimatorSpec, isNoneOrZero, hf, ht]
  · simp [get_predict_salary, isNoneOrZero]
  · simp [get_predict_salary, isNoneOrZero]
  · simp [get_predict_salary, isNoneOrZero]
    norm_num
  · simp [get_predict_salary, isNoneOrZero]
    norm_num
  · simp [get_predict_salary, isNoneOrZero]
    norm_num

/-- C2 counterexample: with both bounds present, non-zero and equal, the
estimator returns the present value `0`, contradicting the claim that a
present estimate is never zero. -/
theorem c2_present_zero_counterexample :
    get_predict_salary (some 1000) (some 1000) = some 0 := by
  simp [get_predict_salary, isNoneOrZero]

/-- C2 amended: a present estimate is zero exactly when both bounds are
present, non-zero and equal (the `(to - from)/2` branch at `to = from`);
in every other case a present estimate is non-zero. -/
theorem c2_present_zero_iff_equal_bounds
    (salary_from salary_to : Option ℚ) (v : ℚ)
    (h : get_predict_salary salary_from salary_to = some v) :
    v = 0 ↔ ∃ x : ℚ, x ≠ 0 ∧ salary_from = some x ∧ salary_to = some x := by
  cases salary_from with
  | none =>
      cases salary_to with
      | none => simp [get_predict_salary, isNoneOrZero] at h
      | some t =>
          by_cases ht : t = 0
          · simp [get_predict_salary, isNoneOrZero, ht] at h
          · simp [get_predict_salary, isNoneOrZero, ht] at h
            constructor
            · intro hv
              rw [← h] at hv
              rcases mul_eq_zero.mp hv with h0 | h0
              · exact absurd h0 ht
              · norm_num at h0
            · rintro ⟨x, _, hx, _⟩
              exact absurd hx (by simp)
  | some f =>
      by_cases hf : f = 0
      · cases salary_to with
        | none => simp [get_predict_salary, isNoneOrZero, hf] at h
        | some t =>
            by_cases ht : t = 0
            · simp [get_predict_salary, isNoneOrZero, hf, ht] at h
            · simp [get_predict_salary, isNoneOrZero, hf, ht] at h
              constructor
              · intro hv
                rw [← h] at hv
                rcases mul_eq_zero.mp hv with h0 | h0
                · exact absurd h0 ht
                · norm_num at h0
              · rintro ⟨x, hx0, hx, _⟩
                exact absurd (Option.some_injective _ hx) (fun he => hx0 (he ▸ hf))
      · cases salary_to with
        | none =>
            simp [get_predict_salary, isNoneOrZero, hf] at h
            constructor
            · intro hv
              rw [← h] at hv
              rcases mul_eq_zero.mp hv with h0 | h0
              · exact absurd h0 hf
              · norm_num at h0
            · rintro ⟨x, _, _, hx⟩
              exact absurd hx (by simp)
        | some t =>
            by_cases ht : t = 0
            · simp [get_predict_salary, isNoneOrZero, hf, ht] at h
              constructor
              · intro hv
                rw [← h] at hv
                rcases mul_eq_zero.mp hv with h0 | h0
                · exact absurd h0 hf
                · norm_num at h0
              · rintro ⟨x, hx0, _, hx⟩
                exact absurd (Option.some_injective _ hx) (fun he => hx0 (he ▸ ht))
            · simp [get_predict_salary, isNoneOrZero, hf, ht] at h
              constructor
              · intro hv
                rw [← h] at hv
                have hte : t = f := by
                  have h2 : (t - f) / 2 = 0 := hv
                  have h3 : t - f = 0 := by
                    field_simp at h2
                    linarith
                  linarith
                exact ⟨f, hf, rfl, by rw [hte]⟩
              · rintro ⟨x, _, hxf, hxt⟩
                have hf' : f = x := Option.some_injective _ hxf
                have ht' : t = x := Option.some_injective _ hxt
                rw [← h, ht', hf']
                ring

/-- C2 witness: the amended theorem applied at the counterexample input
`(some 1000, some 1000)`, whose estimate is the present value `0`. -/
theorem c2_present_zero_iff_equal_bounds_witness :
    (0 : ℚ) = 0 ↔
      ∃ x : ℚ, x ≠ 0 ∧ (some 1000 : Option ℚ) = some x ∧
        (some 1000 : Option ℚ) = some x :=
  c2_present_zero_iff_equal_bounds (some 1000) (some 1000) 0
    (by simp [get_predict_salary, isNoneOrZero])

/-- A language entry of a successful aggregation has at most as many
processed vacancies as found vacancies, because the processed estimates are
a `filterMap` of the found list. -/
theorem aggregateVacancies_processed_le_found {V : Type}
    (fetch : String → List V) (predictSalary : V → Option ℚ) :
    ∀ (languages : List String) (result : List (String × LanguageStats))
      (language : String) (st : LanguageStats),
      aggregateVacancies fetch predictSalary languages = .ok result →
      (language, st) ∈ result →
      st.vacancies_processed ≤ st.vacancies_found := by
  intro languages
  induction languages with
  | nil =>
      intro result language st h hmem
      simp only [aggregateVacancies] at h
      cases h
      simp at hmem
  | cons lang rest ih =>
      intro result language st h hmem
      simp only [aggregateVacancies] at h
      cases hmean : statisticsMean
          ((fetch ("программист " ++ lang)).filterMap predictSalary) with
      | error e => rw [hmean] at h; cases h
      | ok m =>
          rw [hmean] at h
          cases htail : aggregateVacancies fetch predictSalary rest with
          | error e => rw [htail] at h; cases h
          | ok tail =>
              rw [htail] at h
              cases h
              rcases List.mem_cons.mp hmem with heq | hmem2
              · have hst : st =
                    ⟨(fetch ("программист " ++ lang)).length,
                     ((fetch ("программист " ++ lang)).filterMap
                        predictSalary).length,
                     pyIntTrunc m⟩ := congrArg Prod.snd heq
                rw [hst]
                exact List.length_filterMap_le _ _
              · exact ih tail language st htail hmem2

/-- C4: every LanguageStats in a successfully produced report, for either
provider, satisfies vacancies_processed ≤ vacancies_found. -/
theorem c4_processed_le_found :
    (∀ (fetch : String → List HHVacancy) (languages : List String)
       (result : List (String × LanguageStats)) (language : String)
       (st : LanguageStats),
        predict_hh_programmers_vacancies fetch languages = .ok result →
        (language, st) ∈ result →
        st.vacancies_processed ≤ st.vacancies_found) ∧
    (∀ (fetch : String → List SJVacancy) (languages : List String)
       (result : List (String × LanguageStats)) (language : String)
       (st : LanguageStats),
        predict_sj_programmers_vacancies fetch languages = .ok result →
        (language, st) ∈ result →
        st.vacancies_processed ≤ st.vacancies_found) := by
  constructor
  · intro fetch languages result language st h hmem
    exact aggregateVacancies_processed_le_found fetch predict_rub_salary_hh
      languages result language st h hmem
  · intro fetch languages result language st h hmem
    exact aggregateVacancies_processed_le_found fetch predict_rub_salary_sj
      languages result language st h hmem

/-- C4 witness: the theorem applied to a one-language HeadHunter run over a
single RUR vacancy with bounds 1000 and 2000, which aggregates to the
stats record (1, 1, 500). -/
theorem c4_processed_le_found_witness :
    (⟨1, 1, 500⟩ : LanguageStats).vacancies_processed ≤
      (⟨1, 1, 500⟩ : LanguageStats).vacancies_found :=
  c4_processed_le_found.1
    (fun _ => [⟨some ⟨"RUR", some 1000, some 2000⟩⟩]) ["Python"]
    [("Python", ⟨1, 1, 500⟩)] "Python" ⟨1, 1, 500⟩
    (by
      have h1 : predict_rub_salary_hh ⟨some ⟨"RUR", some 1000, some 2000⟩⟩
          = some 500 := by
        simp [predict_rub_salary_hh, get_predict_salary, isNoneOrZero]
        norm_num
      simp [predict_hh_programmers_vacancies, aggregateVacancies, h1,
        statisticsMean, pyIntTrunc])
    (by simp)

/-- C3 (code bug): a language whose fetched vacancies yield zero non-absent
estimates makes the aggregator call `statistics.mean` on the empty list,
which raises `StatisticsError` and aborts the whole report, instead of
leaving average_salary absent as the specification requires. -/
theorem c3_empty_estimates_raises :
    predict_hh_programmers_vacancies (fun _ => [⟨none⟩]) ["Python"]
      = .error "mean requires at least one data point" := rfl

/-- C5: on a mocked HeadHunter server answering every page request with
`pages = 1` and two items, one RUR salary 1000..2000 and one absent
salary, the one-language aggregation yields exactly vacancies_found = 2,
vacancies_processed = 1, average_salary = 500. -/
theorem c5_end_to_end :
    predict_hh_programmers_vacancies
      (fun _ => get_hh_vacancies
        (fun _ => ⟨1, [⟨some ⟨"RUR", some 1000, some 2000⟩⟩, ⟨none⟩]⟩) 1)
      ["Python"]
    = .ok [("Python", ⟨2, 1, 500⟩)] := by
  have h1 : predict_rub_salary_hh ⟨some ⟨"RUR", some 1000, some 2000⟩⟩
      = some 500 := by
    simp [predict_rub_salary_hh, get_predict_salary, isNoneOrZero]
    norm_num
  have h2 : predict_rub_salary_hh ⟨none⟩ = none := rfl
  simp [predict_hh_programmers_vacancies, aggregateVacancies,
    get_hh_vacancies, get_hh_vacancies_loop, h1, h2, statisticsMean,
    pyIntTrunc]

/-- Invariant of the HeadHunter pagination loop over an honest chunked
server: with enough fuel, starting from any page the loop appends exactly
the records from that page onward. -/
theorem get_hh_vacancies_loop_honest (L : List HHVacancy) (fuel : Nat) :
    ∀ (page : Nat) (acc : List HHVacancy),
      1 ≤ fuel → (L.length + 19) / 20 ≤ page + fuel →
      get_hh_vacancies_loop (hhHonestServer L) fuel page acc
        = acc ++ L.drop (20 * page) := by
  induction fuel with
  | zero => intro page acc h1 _; omega
  | succ f ih =>
      intro page acc _ h2
      simp only [get_hh_vacancies_loop, hhHonestServer]
      by_cases hstop : (L.length + 19) / 20 ≤ page + 1
      · rw [if_pos hstop]
        have hlen : (L.drop (20 * page)).length ≤ 20 := by
          rw [List.length_drop]; omega
        rw [List.take_of_length_le hlen]
      · rw [if_neg hstop]
        rw [ih (page + 1) _ (by omega) (by omega)]
        rw [List.append_assoc]
        have h20 : 20 * (page + 1) = 20 * page + 20 := by ring
        rw [h20, ← List.drop_drop, List.take_append_drop]

/-- Invariant of the SuperJob pagination loop over an honest chunked
server: with enough fuel, starting from any page the loop appends exactly
the records from that page onward. -/
theorem get_sj_vacancies_loop_honest (L : List SJVacancy) (fuel : Nat) :
    ∀ (page : Nat) (acc : List SJVacancy),
      1 ≤ fuel → L.length / 100 + 1 ≤ page + fuel →
      get_sj_vacancies_loop (sjHonestServer L) fuel page acc
        = acc ++ L.drop (100 * page) := by
  induction fuel with
  | zero => intro page acc h1 _; omega
  | succ f ih =>
      intro page acc _ h2
      simp only [get_sj_vacancies_loop, sjHonestServer]
      by_cases hstop : L.length / 100 + 1 ≤ page + 1
      · rw [if_pos hstop]
        have hlen : (L.drop (100 * page)).length ≤ 100 := by
          rw [List.length_drop]; omega
        rw [List.take_of_length_le hlen]
      · rw [if_neg hstop]
        rw [ih (page + 1) _ (by omega) (by omega)]
        rw [List.append_assoc]
        have h100 : 100 * (page + 1) = 100 * page + 100 := by ring
        rw [h100, ← List.drop_drop, List.take_append_drop]

/-- C6: over an honest server that serves an arbitrary record list in full
pages except the last, each fetcher accumulates exactly that list — all
server-reported records, in server order, with no gaps and no duplicates.
HeadHunter takes the page count directly from the response; SuperJob
derives it from the reported total as total / 100 + 1. -/
theorem c6_pagination_exact :
    (∀ L : List HHVacancy,
      get_hh_vacancies (hhHonestServer L) ((L.length + 19) / 20 + 1) = L) ∧
    (∀ L : List SJVacancy,
      get_sj_vacancies (sjHonestServer L) (L.length / 100 + 2) = L) := by
  constructor
  · intro L
    unfold get_hh_vacancies
    rw [get_hh_vacancies_loop_honest L _ 0 [] (by omega) (by omega)]
    simp
  · intro L
    unfold get_sj_vacancies
    rw [get_sj_vacancies_loop_honest L _ 0 [] (by omega) (by omega)]
    simp

/-- C7: when SUPERJOB_KEY is absent the SuperJob pipeline is never invoked
(the output does not depend on `sjReport` at all) and exactly the
HeadHunter table is rendered. -/
theorem c7_missing_key_skips_superjob :
    ∀ (hh : List (String × LanguageStats))
      (sjReport : String → Except String (List (String × LanguageStats))),
      main (.ok hh) sjReport none
        = [OutputLine.table "HeadHunter Moscow" hh] := by
  intro hh sjReport
  rfl

/-- C8 counterexample: an error raised while generating the HeadHunter
report leaves only the error line; the SuperJob report is not produced
even though its key is set and its pipeline would succeed, contradicting
the claim that an error terminates only the failing report. -/
theorem c8_first_error_skips_second_report :
    main (.error "Город не найден")
      (fun _ => .ok [("Python", ⟨1, 1, 500⟩)]) (some "key")
      = [OutputLine.errorLine "Error: Город не найден"] := rfl

/-- C8 amended: a single top-level handler wraps both reports, so every
error is printed as an "Error: <message>" line and `main` still returns
output normally (the process exits 0); an error in the SuperJob report
leaves the already rendered HeadHunter table in place, but an error in
the HeadHunter report prevents the SuperJob report from being attempted. -/
theorem c8_top_level_error_handling :
    (∀ (e : String)
       (sjReport : String → Except String (List (String × LanguageStats)))
       (key : Option String),
        main (.error e) sjReport key
          = [OutputLine.errorLine ("Error: " ++ e)]) ∧
    (∀ (hh : List (String × LanguageStats)) (key e : String),
        key ≠ "" →
        main (.ok hh) (fun _ => .error e) (some key)
          = [OutputLine.table "HeadHunter Moscow" hh,
             OutputLine.errorLine ("Error: " ++ e)]) := by
  constructor
  · intro e sjReport key
    rfl
  · intro hh key e hkey
    simp [main, hkey]

/-- C8 witness: the amended theorem applied with an empty HeadHunter
report, key "k" and a failing SuperJob pipeline. -/
theorem c8_top_level_error_handling_witness :
    main (.ok []) (fun _ => .error "msg") (some "k")
      = [OutputLine.table "HeadHunter Moscow" [],
         OutputLine.errorLine ("Error: " ++ "msg")] :=
  c8_top_level_error_handling.2 [] "k" "msg" (by decide)

/-- The recursive search of the script coincides with taking the first
exact-name match of the depth-first preorder listing of the forest. -/
theorem find_hh_area_recursive_eq_dfs :
    (areas : List HHArea) → (text : String) →
      find_hh_area_recursive areas text
        = ((dfsPreorder areas).find? (fun a => a.name == text)).map HHArea.id
  | [], _ => by simp [find_hh_area_recursive, dfsPreorder]
  | .node i n c :: rest, text => by
    have ihc := find_hh_area_recursive_eq_dfs c text
    have ihr := find_hh_area_recursive_eq_dfs rest text
    by_cases hn : n = text
    · simp [find_hh_area_recursive, dfsPreorder, List.find?, HHArea.name,
        hn, HHArea.id]
    · have hguard : (if 0 < c.length then find_hh_area_recursive c text
          else none) = find_hh_area_recursive c text := by
        match c with
        | [] => simp [find_hh_area_recursive]
        | _ :: _ => simp
      have hbeq : (HHArea.name (.node i n c) == text) = false := by
        simp [HHArea.name, hn]
      simp only [find_hh_area_recursive, if_neg hn]
      rw [hguard, ihc, ihr]
      simp only [dfsPreorder, List.find?_cons, hbeq, List.find?_append]
      cases h : (dfsPreorder c).find? (fun a => a.name == text) with
      | none => simp [Option.or]
      | some a => simp [Option.or]

/-- C9 counterexample: in a tree whose matching node has the empty string
as id, the search does find the node, but the resolver raises the
city-not-found error instead of returning the id, because `if not
area_id` treats the empty string as false. -/
theorem c9_empty_id_counterexample :
    find_hh_area_recursive [.node "" "Москва" []] "Москва" = some "" ∧
    get_hh_area_id [.node "" "Москва" []] "Москва"
      = .error "Город не найден" := by
  have h1 : find_hh_area_recursive [.node "" "Москва" []] "Москва"
      = some "" := by
    simp [find_hh_area_recursive]
  exact ⟨h1, by simp [get_hh_area_id, h1]⟩

/-- C9 amended: for every areas tree and city name the resolver performs
a depth-first preorder search by exact name match: if no node matches it
fails with the city-not-found error, and if the first matching node in
depth-first order has a non-empty id it returns that id; a first match
whose id is the empty string is collapsed into the same error by Python
truthiness. -/
theorem c9_resolver_first_dfs_match :
    ∀ (areas : List HHArea) (text : String),
      get_hh_area_id areas text
        = match (dfsPreorder areas).find? (fun a => a.name == text) with
          | none => .error "Город не найден"
          | some a =>
              if a.id = "" then .error "Город не найден" else .ok a.id := by
  intro areas text
  unfold get_hh_area_id
  rw [find_hh_area_recursive_eq_dfs areas text]
  cases (dfsPreorder areas).find? (fun a => a.name == text) with
  | none => rfl
  | some a => rfl

/-- C10: with both bounds present and non-zero but the upper bound below
the lower bound, the estimator returns a present negative value: the code
never checks that the upper bound dominates the lower one. -/
theorem c10_negative_estimate :
    get_predict_salary (some 2000) (some 1000) = some (-500) ∧
    (-500 : ℚ) < 0 := by
  constructor
  · simp [get_predict_salary, isNoneOrZero]
    norm_num
  · norm_num

end DvmnVacancy
